import Mathlib

/-!
Verification of the halloween-dashboard activation orchestrator.

This file gives a shallow embedding of the Go server (the activation
handler, the token ledger operations, the trigger dispatch switch, the
Govee LAN protocol client, and the statistics zero-fill loop) and proves
or refutes the frozen specification claims against it.

Conventions of the embedding:
- SQL state is a `DB` record; a SQL transaction is modelled by building
  the candidate state and returning the original state on any error path
  (each Go error path calls tx.Rollback and returns).
- Fallible external effects (HTTP responses, UDP replies, SQL step
  failures) are supplied by explicit environment/oracle records.
- Machine integers are `Int` (token balances can go negative in SQLite)
  or `Nat` where the source value is a count.
-/

namespace HalloweenDashboard

/-- Go struct GoveeColorCommandData: config color payload. -/
structure GoveeColorCommandData where
  r : Int
  g : Int
  b : Int
deriving DecidableEq

/-- Go struct goveeRGB. -/
structure GoveeRGB where
  r : Int
  g : Int
  b : Int
deriving DecidableEq

/-- Go struct goveeState: the captured light state (fields onOff,
brightness, color, colorTemInKelvin). -/
structure GoveeState where
  onOff : Int
  brightness : Int
  color : GoveeRGB
  colorTemperature : Int
deriving DecidableEq

/-- Go struct Trigger. The Go field named Type is called `typ` here since
Type is a Lean sort name. -/
structure Trigger where
  id : String
  name : String := ""
  description : String := ""
  typ : String := ""
  arduinoIP : String := ""
  goveeDeviceIP : String := ""
  goveeModel : String := ""
  goveeColor : Option GoveeColorCommandData := none
  goveeColorTemp : Option Int := none
  goveeBrightness : Option Int := none
  secretKey : String := ""
deriving DecidableEq

/-- Row of the users table (id TEXT, tokens_remaining INTEGER, is_admin). -/
structure UserRow where
  id : String
  tokensRemaining : Int
  isAdmin : Bool
deriving DecidableEq

/-- Row of the actions table; `success` is inserted as 0 (false) and set
to 1 (true) only by the success branch of delegateTrigger. -/
structure ActionRow where
  id : Nat
  userId : String
  triggerId : String
  success : Bool
deriving DecidableEq

/-- The SQLite database state touched by the core: users, actions,
recharges (recorded as the list of user ids, in insertion order), and the
rowid counter that LastInsertId reports for actions. -/
structure DB where
  users : List UserRow
  actions : List ActionRow
  recharges : List String
  nextActionId : Nat := 1
deriving DecidableEq

/-- const defaultTokens = 10 in the source. -/
def defaultTokens : Int := 10

/-- SELECT ... FROM users WHERE id = uid (first matching row). -/
def findUser (users : List UserRow) (uid : String) : Option UserRow :=
  users.find? (fun u => u.id == uid)

/-- UPDATE users SET tokens_remaining = f(tokens_remaining) WHERE id = uid.
Every row whose id matches is rewritten; others are untouched. -/
def updateTokens (users : List UserRow) (uid : String) (f : Int → Int) : List UserRow :=
  users.map (fun u => if u.id == uid then { u with tokensRemaining := f u.tokensRemaining } else u)

/-- RowsAffected of an UPDATE ... WHERE id = uid. -/
def rowsMatching (users : List UserRow) (uid : String) : Nat :=
  (users.filter (fun u => u.id == uid)).length

/-- Balance readback for one user. -/
def balanceOf (db : DB) (uid : String) : Option Int :=
  (findUser db.users uid).map (fun u => u.tokensRemaining)

/-- The registry lookup loop in activateHandler: linear scan over
app.config.Triggers with break on the first id match. -/
def lookupTrigger (triggers : List Trigger) (tid : String) : Option Trigger :=
  triggers.find? (fun t => t.id == tid)

/-- Which SQL steps of a transaction fail, supplied by the environment.
exec1Fail is the first tx.Exec of the handler, exec2Fail the second. -/
structure TxOracle where
  beginFail : Bool := false
  exec1Fail : Bool := false
  exec2Fail : Bool := false
  commitFail : Bool := false
deriving DecidableEq

/-- Outcome of activateHandler as seen by the HTTP caller. -/
inductive ActivateResult where
  | outOfTokens
  | notFound
  | dbError
  | initiated (actionId : Nat) (trigger : Trigger)
deriving DecidableEq

/-- activateHandler from the source, up to the point where the dispatch
goroutine is spawned. The Go order is kept exactly: (1) token check on
the user row that the session middleware read before the handler ran,
(2) registry lookup, (3) one transaction doing the unguarded
tokens_remaining - 1 update (non-admins only, with a RowsAffected = 0
check) and the pending action insert. Every error path rolls back, so the
returned DB is the input DB on those paths. -/
def activateHandler (db : DB) (triggers : List Trigger) (user : UserRow)
    (triggerID : String) (o : TxOracle) : ActivateResult × DB :=
  if user.isAdmin = false ∧ user.tokensRemaining ≤ 0 then
    (.outOfTokens, db)
  else
    match lookupTrigger triggers triggerID with
    | none => (.notFound, db)
    | some targetTrigger =>
      if o.beginFail then (.dbError, db)
      else if user.isAdmin = false ∧ o.exec1Fail then (.dbError, db)
      else if user.isAdmin = false ∧ rowsMatching db.users user.id = 0 then (.dbError, db)
      else
        let txUsers := if user.isAdmin then db.users
          else updateTokens db.users user.id (fun tok => tok - 1)
        if o.exec2Fail then (.dbError, db)
        else
          let actionId := db.nextActionId
          if o.commitFail then (.dbError, db)
          else
            (.initiated actionId targetTrigger,
             { db with users := txUsers,
                       actions := db.actions ++
                         [{ id := actionId, userId := user.id,
                            triggerId := triggerID, success := false }],
                       nextActionId := actionId + 1 })

/-- Outcome of rechargeHandler. -/
inductive RechargeResult where
  | dbError
  | redirect
deriving DecidableEq

/-- rechargeHandler from the source: one transaction setting
tokens_remaining to defaultTokens and inserting one recharges row; any
failing step rolls back, leaving the DB untouched. -/
def rechargeHandler (db : DB) (user : UserRow) (o : TxOracle) : RechargeResult × DB :=
  if o.beginFail then (.dbError, db)
  else if o.exec1Fail then (.dbError, db)
  else
    let txUsers := updateTokens db.users user.id (fun _ => defaultTokens)
    if o.exec2Fail then (.dbError, db)
    else
      let txRecharges := db.recharges ++ [user.id]
      if o.commitFail then (.dbError, db)
      else (.redirect, { db with users := txUsers, recharges := txRecharges })

/-- Which fire-and-forget UDP sends succeed, per command kind, supplied
by the environment (sendGoveeCommand fails when marshal/dial/write fail). -/
structure SendEnv where
  turnOk : Bool := true
  brightnessOk : Bool := true
  colorOk : Bool := true
  colorTempOk : Bool := true
deriving DecidableEq

/-- A UDP command sent to the Govee device, as assembled by
sendGoveeCommand / setGoveeColor. -/
inductive GoveeCmd where
  | turn (v : Int)
  | brightness (v : Int)
  | colorwc (r g b temp : Int)
deriving DecidableEq

/-- Which step of applyGoveeLightState produced its error. -/
inductive GoveeErr where
  | power
  | brightness
  | color
  | colorTemp
deriving DecidableEq

/-- Step 3 of applyGoveeLightState: set color, or else color temperature
when the temperature is positive. Color takes precedence when both are
given. `trace` accumulates the commands attempted so far. -/
def applyColorStep (env : SendEnv) (color : Option GoveeColorCommandData)
    (colorTemp : Option Int) (trace : List GoveeCmd) : Option GoveeErr × List GoveeCmd :=
  match color with
  | some c =>
    (if env.colorOk = false then some GoveeErr.color else none,
     trace ++ [GoveeCmd.colorwc c.r c.g c.b 0])
  | none =>
    match colorTemp with
    | some temp =>
      if 0 < temp then
        (if env.colorTempOk = false then some GoveeErr.colorTemp else none,
         trace ++ [GoveeCmd.colorwc 0 0 0 temp])
      else (none, trace)
    | none => (none, trace)

/-- Step 2 of applyGoveeLightState: set brightness when given, then the
color step. -/
def applyBrightnessStep (env : SendEnv) (bright : Option Int)
    (color : Option GoveeColorCommandData) (colorTemp : Option Int)
    (trace : List GoveeCmd) : Option GoveeErr × List GoveeCmd :=
  match bright with
  | some v =>
    if env.brightnessOk = false then (some GoveeErr.brightness, trace ++ [GoveeCmd.brightness v])
    else applyColorStep env color colorTemp (trace ++ [GoveeCmd.brightness v])
  | none => applyColorStep env color colorTemp trace

/-- applyGoveeLightState from the source: power, then brightness, then
color-or-temperature, in order, stopping at the first failing send. A nil
Go pointer argument is `none`. Returns the error (none = success) and the
list of commands attempted. -/
def applyGoveeLightState (env : SendEnv) (onOff bright : Option Int)
    (color : Option GoveeColorCommandData) (colorTemp : Option Int) :
    Option GoveeErr × List GoveeCmd :=
  match onOff with
  | some v =>
    if env.turnOk = false then (some GoveeErr.power, [GoveeCmd.turn v])
    else applyBrightnessStep env bright color colorTemp [GoveeCmd.turn v]
  | none => applyBrightnessStep env bright color colorTemp []

/-- Environment of one simulateGoveeLightning run: `status` is the result
of the initial getGoveeStatus capture (none covers every capture failure:
listen error, send error, timeout, malformed or unexpected reply);
`initColorOk` is the outcome of the pre-flicker setGoveeColor, which the
source only logs; `flickerIters` is how many loop iterations the 10 s
wall-clock flicker loop performed (its sends are fire-and-forget and
their errors are discarded); `restore` drives the final
applyGoveeLightState. -/
structure LightningEnv where
  status : Option GoveeState
  initColorOk : Bool := true
  flickerIters : Nat := 0
  restore : SendEnv := {}
deriving DecidableEq

/-- Failure of simulateGoveeLightning. -/
inductive LightningErr where
  | captureFailed
  | restoreFailed (e : GoveeErr)
deriving DecidableEq

/-- The brightness commands of `n` flicker loop iterations (100 then 1
each iteration). -/
def flickerTrace : Nat → List GoveeCmd
  | 0 => []
  | n + 1 => GoveeCmd.brightness 100 :: GoveeCmd.brightness 1 :: flickerTrace n

/-- simulateGoveeLightning from the source. A capture failure returns at
once with no command sent. Otherwise: the flicker color set (its error is
only logged), the flicker loop (errors discarded), and the final state
restore, whose result is what the function returns — so a restore error
propagates to the caller. The second component is the list of commands
sent after the capture. -/
def simulateGoveeLightning (env : LightningEnv) (_ip : String) :
    Option LightningErr × List GoveeCmd :=
  match env.status with
  | none => (some LightningErr.captureFailed, [])
  | some st =>
    let pre := GoveeCmd.colorwc 200 200 255 0 :: flickerTrace env.flickerIters
    let turnValue : Int := if st.onOff = 1 then 1 else 0
    let restored := applyGoveeLightState env.restore (some turnValue) (some st.brightness)
      (some { r := st.color.r, g := st.color.g, b := st.color.b }) (some st.colorTemperature)
    (restored.1.map LightningErr.restoreFailed, pre ++ restored.2)

/-- Typed failure of one dispatch, mirroring the error values built in
delegateTrigger and the executors. -/
inductive DispatchErr where
  | httpTransport
  | httpStatus (code : Nat)
  | lightningFailed (e : LightningErr)
  | statusFailed
  | setStateFailed (e : GoveeErr)
  | unknownTriggerType (typ : String)
deriving DecidableEq

/-- The executor selected by the switch in delegateTrigger, together with
the request it will issue. -/
inductive ExecutorCall where
  | httpGet (url : String)
  | goveeLightning (ip : String)
  | goveeStatus (ip : String)
  | goveeSetState (ip : String) (bright : Option Int)
      (color : Option GoveeColorCommandData) (temp : Option Int)
  | unknownKind (typ : String)
deriving DecidableEq

/-- The switch at the top of delegateTrigger: an empty type tag defaults
to "arduino", then the four cases select their executor; anything else is
the unknown-trigger-type error case. The arduino URL is built as in
handleArduinoTrigger. -/
def selectExecutor (t : Trigger) : ExecutorCall :=
  let triggerType := if t.typ = "" then "arduino" else t.typ
  if triggerType = "arduino" then
    ExecutorCall.httpGet ("http://" ++ t.arduinoIP ++ "/trigger?key=" ++ t.secretKey)
  else if triggerType = "govee_lightning" then ExecutorCall.goveeLightning t.goveeDeviceIP
  else if triggerType = "govee_status" then ExecutorCall.goveeStatus t.goveeDeviceIP
  else if triggerType = "govee_set_state" then
    ExecutorCall.goveeSetState t.goveeDeviceIP t.goveeBrightness t.goveeColor t.goveeColorTemp
  else ExecutorCall.unknownKind t.typ

/-- External world of one dispatch: the HTTP GET outcome (none is a
transport error, some code the response status), the lightning
environment, the status-query reply, and the set-state send outcomes. -/
structure DispatchEnv where
  httpResponse : Option Nat := none
  lightning : LightningEnv := { status := none }
  statusReply : Option GoveeState := none
  setState : SendEnv := {}
deriving DecidableEq

/-- handleArduinoTrigger outcome: transport errors fail, any status of
400 or more fails, anything below 400 succeeds. -/
def handleArduinoTrigger (env : DispatchEnv) : Option DispatchErr :=
  match env.httpResponse with
  | none => some DispatchErr.httpTransport
  | some code => if 400 ≤ code then some (DispatchErr.httpStatus code) else none

/-- Run the selected executor against the environment and report its
error, if any, as delegateTrigger sees it. -/
def runExecutor (env : DispatchEnv) : ExecutorCall → Option DispatchErr
  | ExecutorCall.httpGet _ => handleArduinoTrigger env
  | ExecutorCall.goveeLightning ip =>
    (simulateGoveeLightning env.lightning ip).1.map DispatchErr.lightningFailed
  | ExecutorCall.goveeStatus _ =>
    match env.statusReply with
    | none => some DispatchErr.statusFailed
    | some _ => none
  | ExecutorCall.goveeSetState _ bright color temp =>
    (applyGoveeLightState env.setState (some 1) bright color temp).1.map
      DispatchErr.setStateFailed
  | ExecutorCall.unknownKind typ => some (DispatchErr.unknownTriggerType typ)

/-- delegateTrigger from the source (the goroutine body): run the
executor chosen by the type switch; on failure issue exactly one
unconditional +1 refund UPDATE when the user is not an admin (admins get
no refund) and leave the action row untouched; on success set the action
row success flag. -/
def delegateTrigger (db : DB) (t : Trigger) (user : UserRow) (actionID : Nat)
    (env : DispatchEnv) : DB :=
  match runExecutor env (selectExecutor t) with
  | some _ =>
    if user.isAdmin then db
    else { db with users := updateTokens db.users user.id (fun tok => tok + 1) }
  | none =>
    let marked := db.actions.map
      (fun a => if a.id = actionID then { a with success := true } else a)
    { db with actions := marked }

/-- One point of the per-minute activation series; `minute` is Unix
seconds truncated to the minute. -/
structure ActivationMinute where
  minute : Nat
  publicCount : Nat := 0
  adminCount : Nat := 0
deriving DecidableEq

/-- The Go map statsHandler builds over the SQL rows: a later row with
the same minute overwrites an earlier one. -/
def activationMap (rows : List ActivationMinute) : Nat → Option ActivationMinute :=
  rows.foldl (fun acc am => fun m => if m = am.minute then some am else acc m) (fun _ => none)

/-- The zero-fill loop of statsHandler: for i = 59 down to 0 take the
minute of now minus i minutes, truncated to the minute, and emit the
looked-up row or an explicit zero point. `nowSec` is the current Unix
time in seconds. -/
def zeroFillActivations (nowSec : Nat) (rows : List ActivationMinute) : List ActivationMinute :=
  (List.range 60).map (fun j =>
    let i := 59 - j
    let minute := (nowSec - i * 60) / 60 * 60
    match activationMap rows minute with
    | some d => d
    | none => { minute := minute })

/-!
Interleaving model of concurrent activation requests by one non-admin
user, for the over-spend claim. Each request performs two atomic events
against the users row, exactly as the source does: `readUser r` is the
session middleware SELECT that loads the balance the handler later
checks, and `runTx r` is the handler body, which checks that snapshot
(not the current row) and, if the snapshot is positive, commits the
unguarded tokens_remaining - 1 UPDATE. The snapshot is consumed so each
request debits at most once.
-/

/-- Shared state of the interleaving model: the row balance, each
pending request's snapshot, and how many debit transactions committed. -/
structure ConcState where
  balance : Int
  snapshot : Nat → Option Int
  debits : Nat

/-- One atomic event of a request. -/
inductive ConcEvent where
  | readUser (req : Nat)
  | runTx (req : Nat)

/-- Semantics of one event. -/
def concStep (s : ConcState) : ConcEvent → ConcState
  | ConcEvent.readUser r =>
    { s with snapshot := fun j => if j = r then some s.balance else s.snapshot j }
  | ConcEvent.runTx r =>
    match s.snapshot r with
    | none => s
    | some b =>
      let cleared := fun j => if j = r then none else s.snapshot j
      if 0 < b then
        { balance := s.balance - 1, snapshot := cleared, debits := s.debits + 1 }
      else
        { s with snapshot := cleared }

/-- Run a schedule of events. -/
def concRun (s : ConcState) (sched : List ConcEvent) : ConcState :=
  sched.foldl concStep s

/-- Fresh state for one user with balance n. -/
def concInit (n : Int) : ConcState :=
  { balance := n, snapshot := fun _ => none, debits := 0 }

/-- The serial schedule: k requests run one after another, each reading
its snapshot only after the previous transaction committed. -/
def serialSched : Nat → Nat → List ConcEvent
  | _, 0 => []
  | i, k + 1 => ConcEvent.readUser i :: ConcEvent.runTx i :: serialSched (i + 1) k

/-- One complete sequential request against the store: an activation
(session read, handler, and the synchronous resolution of its dispatch)
or a recharge. The uid is the session user. -/
inductive SeqOp where
  | activateReq (uid : String) (triggers : List Trigger) (tid : String)
      (o : TxOracle) (env : DispatchEnv)
  | rechargeReq (uid : String) (o : TxOracle)

/-- Sequential semantics of one request: the middleware reads the user
row, the handler runs, and an initiated activation is resolved by
delegateTrigger before the next request starts. -/
def seqStep (db : DB) : SeqOp → DB
  | SeqOp.activateReq uid triggers tid o env =>
    match findUser db.users uid with
    | none => db
    | some user =>
      match activateHandler db triggers user tid o with
      | (ActivateResult.initiated aid trig, db2) => delegateTrigger db2 trig user aid env
      | (_, db2) => db2
  | SeqOp.rechargeReq uid o =>
    match findUser db.users uid with
    | none => db
    | some user => (rechargeHandler db user o).2

/-- Run a sequence of requests. -/
def seqRun (db : DB) (ops : List SeqOp) : DB :=
  ops.foldl seqStep db

/-- The store invariant: user ids are unique (id is the PRIMARY KEY of
the users table) and no non-admin row has a negative balance. -/
def GoodDB (db : DB) : Prop :=
  (db.users.map (fun u => u.id)).Nodup ∧
  ∀ u ∈ db.users, u.isAdmin = false → 0 ≤ u.tokensRemaining

instance (db : DB) : Decidable (GoodDB db) := by
  unfold GoodDB; infer_instance

/-! Concrete fixtures for counterexamples and witnesses. -/

/-- An arduino trigger. -/
def trigA : Trigger :=
  { id := "A", typ := "arduino", arduinoIP := "10.0.0.5", secretKey := "pumpkin" }

/-- A second trigger sharing the id "A". -/
def trigA2 : Trigger :=
  { id := "A", typ := "govee_status", goveeDeviceIP := "10.0.0.6" }

/-- A trigger whose type tag is empty. -/
def trigEmpty : Trigger :=
  { id := "E", typ := "", arduinoIP := "10.0.0.9", secretKey := "k" }

/-- A trigger whose type tag matches no case of the switch. -/
def trigBogus : Trigger :=
  { id := "B", typ := "bogus" }

/-- A non-admin user with no tokens left. -/
def userZero : UserRow := { id := "u", tokensRemaining := 0, isAdmin := false }

/-- A non-admin user with one token. -/
def userOne : UserRow := { id := "u", tokensRemaining := 1, isAdmin := false }

/-- An admin user with no tokens. -/
def adminZero : UserRow := { id := "adm", tokensRemaining := 0, isAdmin := true }

/-- A store holding the zero-token user. -/
def dbZero : DB := { users := [userZero], actions := [], recharges := [] }

/-- A store holding the one-token user. -/
def dbOne : DB := { users := [userOne], actions := [], recharges := [] }

/-- A captured light state. -/
def capturedState : GoveeState :=
  { onOff := 1, brightness := 55, color := { r := 10, g := 20, b := 30 },
    colorTemperature := 2700 }

/-! Helper lemmas about the ledger primitives. -/

/-- find? of a filtered-in element is the head of the filtered list. -/
theorem find?_eq_head?_filter {α : Type} (p : α → Bool) (l : List α) :
    l.find? p = (l.filter p).head? := by
  induction l with
  | nil => rfl
  | cons a l ih =>
    by_cases h : p a
    · rw [List.find?_cons_of_pos _ h, List.filter_cons_of_pos h]
      rfl
    · rw [List.find?_cons_of_neg _ h, List.filter_cons_of_neg (by simpa using h), ih]

/-- An UPDATE on the tokens column does not change the id column. -/
theorem updateTokens_ids (users : List UserRow) (uid : String) (f : Int → Int) :
    (updateTokens users uid f).map (fun u => u.id) = users.map (fun u => u.id) := by
  unfold updateTokens
  rw [List.map_map]
  apply List.map_congr_left
  intro u _
  by_cases h : u.id = uid <;> simp [h]

/-- Reading a user back after an UPDATE of the tokens column. -/
theorem findUser_updateTokens (users : List UserRow) (uid : String) (f : Int → Int) :
    findUser (updateTokens users uid f) uid =
      (findUser users uid).map (fun u => { u with tokensRemaining := f u.tokensRemaining }) := by
  unfold findUser updateTokens
  rw [List.find?_map]
  have hp : ((fun u : UserRow => u.id == uid) ∘
      (fun u : UserRow =>
        if u.id == uid then { u with tokensRemaining := f u.tokensRemaining } else u)) =
      (fun u : UserRow => u.id == uid) := by
    funext u
    by_cases h : u.id = uid
    · simp [h]
    · simp [h]
  rw [hp]
  cases hf : users.find? (fun u => u.id == uid) with
  | none => rfl
  | some u =>
    have hu := List.find?_some hf
    simp only [beq_iff_eq] at hu
    simp [hu]

/-- The found user carries the id that was looked up. -/
theorem findUser_id (users : List UserRow) (uid : String) (u : UserRow)
    (h : findUser users uid = some u) : u.id = uid := by
  unfold findUser at h
  have hb := List.find?_some h
  simpa using hb

/-- With unique ids, any member carrying the looked-up id is the found
row. -/
theorem findUser_mem_unique (users : List UserRow) (uid : String) (u : UserRow)
    (hnd : (users.map (fun x => x.id)).Nodup) (hmem : u ∈ users) (hid : u.id = uid) :
    findUser users uid = some u := by
  induction users with
  | nil => cases hmem
  | cons v rest ih =>
    rw [List.map_cons, List.nodup_cons] at hnd
    rcases List.mem_cons.mp hmem with h | h
    · subst h
      unfold findUser
      rw [List.find?_cons_of_pos _ (by simpa using hid)]
    · have hvne : ¬(v.id = uid) := by
        intro he
        exact hnd.1 (List.mem_map.mpr ⟨u, h, by rw [hid, he]⟩)
      unfold findUser
      rw [List.find?_cons_of_neg _ (by simpa using hvne)]
      exact ih hnd.2 h

/-! C10: an empty trigger type tag silently selects the arduino executor
and its HTTP GET against the configured address. -/

/-- C10: a trigger whose kind tag is the empty string is dispatched to
the HTTPDevice (arduino) executor with the GET URL built from the
configured device address and secret, not rejected as an unknown kind. -/
theorem empty_type_defaults_to_arduino (t : Trigger) (env : DispatchEnv)
    (hty : t.typ = "") :
    selectExecutor t =
      ExecutorCall.httpGet ("http://" ++ t.arduinoIP ++ "/trigger?key=" ++ t.secretKey) ∧
    runExecutor env (selectExecutor t) = handleArduinoTrigger env := by
  have h : selectExecutor t =
      ExecutorCall.httpGet ("http://" ++ t.arduinoIP ++ "/trigger?key=" ++ t.secretKey) := by
    simp [selectExecutor, hty]
  refine ⟨h, ?_⟩
  rw [h]
  rfl

/-- Witness for C10 at the concrete empty-tag trigger. -/
theorem empty_type_defaults_to_arduino_witness :
    selectExecutor trigEmpty =
      ExecutorCall.httpGet ("http://" ++ trigEmpty.arduinoIP ++ "/trigger?key=" ++ trigEmpty.secretKey) ∧
    runExecutor {} (selectExecutor trigEmpty) = handleArduinoTrigger {} :=
  empty_type_defaults_to_arduino trigEmpty {} rfl

/-! C5: dispatch by kind tag. The claim fails as stated because the empty
tag is not one of the defined variants yet is not rejected; every other
unknown tag is rejected with the typed unknown-trigger-type error and
refunded. -/

/-- C5 counterexample: the empty kind tag is outside the defined variants
but dispatch selects the arduino HTTP executor instead of producing the
UnknownTriggerType failure. -/
theorem unknown_kind_counterexample :
    trigEmpty.typ ∉ ["arduino", "govee_lightning", "govee_status", "govee_set_state"] ∧
    selectExecutor trigEmpty ≠ ExecutorCall.unknownKind trigEmpty.typ ∧
    selectExecutor trigEmpty = ExecutorCall.httpGet "http://10.0.0.9/trigger?key=k" :=
  ⟨by decide, by decide, by decide⟩

/-- C5 (amended): for every trigger whose kind tag is neither one of the
four defined variants nor the empty string, dispatch produces the typed
UnknownTriggerType failure, and a non-admin user is refunded exactly one
token like for any other failure. -/
theorem unknown_nonempty_kind_rejected (t : Trigger) (db : DB) (user : UserRow)
    (aid : Nat) (env : DispatchEnv) (hne : t.typ ≠ "")
    (hnk : t.typ ∉ ["arduino", "govee_lightning", "govee_status", "govee_set_state"]) :
    selectExecutor t = ExecutorCall.unknownKind t.typ ∧
    runExecutor env (selectExecutor t) = some (DispatchErr.unknownTriggerType t.typ) ∧
    (user.isAdmin = false →
      delegateTrigger db t user aid env =
        { db with users := updateTokens db.users user.id (fun tok => tok + 1) }) := by
  simp only [List.mem_cons, List.not_mem_nil, or_false] at hnk
  push_neg at hnk
  obtain ⟨h1, h2, h3, h4⟩ := hnk
  have hsel : selectExecutor t = ExecutorCall.unknownKind t.typ := by
    simp [selectExecutor, hne, h1, h2, h3, h4]
  refine ⟨hsel, by rw [hsel]; rfl, ?_⟩
  intro hadm
  simp [delegateTrigger, hsel, runExecutor, hadm]

/-- Witness for C5 at a concrete bogus-kind trigger and a non-admin
user. -/
theorem unknown_nonempty_kind_rejected_witness :
    delegateTrigger dbOne trigBogus userOne 1 {} =
      { dbOne with users := updateTokens dbOne.users userOne.id (fun tok => tok + 1) } :=
  (unknown_nonempty_kind_rejected trigBogus dbOne userOne 1 {} (by decide) (by decide)).2.2 rfl

/-! C3: unknown trigger id. The claim fails as stated because the token
check runs before the registry lookup, so a non-admin with no tokens is
denied, not NotFound; users who pass the token check get NotFound with no
ledger transaction. -/

/-- C3 counterexample: a non-admin with balance 0 requesting an id that
is not in the registry is rejected with the out-of-tokens error, not
NotFound, because the token check runs first. -/
theorem notfound_counterexample :
    lookupTrigger [trigA] "missing" = none ∧
    activateHandler dbZero [trigA] userZero "missing" {} =
      (ActivateResult.outOfTokens, dbZero) :=
  ⟨by decide, by decide⟩

/-- C3 (amended): for every user who passes the token check (admin, or
non-admin with positive balance), an activation naming an id absent from
the registry terminates as NotFound and the whole store (balances,
actions, recharges) is returned unchanged: no transaction is started. -/
theorem unknown_trigger_notfound (db : DB) (triggers : List Trigger) (user : UserRow)
    (tid : String) (o : TxOracle)
    (hpass : user.isAdmin = true ∨ 0 < user.tokensRemaining)
    (hmiss : lookupTrigger triggers tid = none) :
    activateHandler db triggers user tid o = (ActivateResult.notFound, db) := by
  have hc : ¬(user.isAdmin = false ∧ user.tokensRemaining ≤ 0) := by
    rcases hpass with h | h
    · simp [h]
    · intro hx
      obtain ⟨-, hx2⟩ := hx
      omega
  simp [activateHandler, hc, hmiss]

/-- Witness for C3 (amended) at a concrete admin user. -/
theorem unknown_trigger_notfound_witness :
    activateHandler dbZero [trigA] adminZero "missing" {} = (ActivateResult.notFound, dbZero) :=
  unknown_trigger_notfound dbZero [trigA] adminZero "missing" {} (Or.inl rfl) (by decide)

/-! C8: duplicate trigger ids resolve to the first match in declaration
order. -/

/-- C8: when two or more triggers of the table share the looked-up id,
the activation lookup returns the first matching trigger in declaration
order (the head of the filtered table), and it does return one. -/
theorem duplicate_id_first_wins (triggers : List Trigger) (tid : String)
    (hdup : 2 ≤ (triggers.filter (fun t => t.id == tid)).length) :
    lookupTrigger triggers tid = (triggers.filter (fun t => t.id == tid)).head? ∧
    ((triggers.filter (fun t => t.id == tid)).head?).isSome = true := by
  constructor
  · exact find?_eq_head?_filter _ _
  · cases hh : (triggers.filter (fun t => t.id == tid)).head? with
    | some a => rfl
    | none =>
      rw [List.head?_eq_none_iff] at hh
      rw [hh] at hdup
      simp at hdup

/-- Witness for C8 at a concrete table with a duplicated id. -/
theorem duplicate_id_first_wins_witness :
    lookupTrigger [trigA, trigA2] "A" =
      ([trigA, trigA2].filter (fun t => t.id == "A")).head? ∧
    (([trigA, trigA2].filter (fun t => t.id == "A")).head?).isSome = true :=
  duplicate_id_first_wins [trigA, trigA2] "A" (by decide)

/-! C2: failure condition of the lightning effect. The claim fails as
stated: the source returns the result of the final restore, so a restore
error also fails the activation (not only a capture error). -/

/-- A lightning environment whose capture succeeds but whose restore
power command fails. -/
def lightningRestoreFailEnv : LightningEnv :=
  { status := some capturedState, restore := { turnOk := false } }

/-- C2 counterexample: the initial state capture succeeds, yet the
operation fails, because the error of the final restore is returned to
the caller. -/
theorem lightning_restore_counterexample :
    lightningRestoreFailEnv.status.isSome = true ∧
    (simulateGoveeLightning lightningRestoreFailEnv "10.0.0.7").1 =
      some (LightningErr.restoreFailed GoveeErr.power) :=
  ⟨rfl, by decide⟩

/-- C2 (amended): the lightning operation succeeds iff the initial
capture succeeds and all three restore sends (power, brightness, color)
succeed; when the capture fails no post-capture command is ever sent and
the result is the capture failure; and the outcomes of the pre-flicker
color set and of the flicker loop never affect the result (they are
logged or discarded). -/
theorem lightning_fails_iff_capture_or_restore (env : LightningEnv) (ip : String) :
    ((simulateGoveeLightning env ip).1 = none ↔
      (env.status.isSome = true ∧ env.restore.turnOk = true ∧
       env.restore.brightnessOk = true ∧ env.restore.colorOk = true)) ∧
    (env.status = none →
      simulateGoveeLightning env ip = (some LightningErr.captureFailed, [])) ∧
    (∀ b n, (simulateGoveeLightning { env with initColorOk := b, flickerIters := n } ip).1 =
      (simulateGoveeLightning env ip).1) := by
  obtain ⟨st, ic, fi, tOk, bOk, cOk, ctOk⟩ := env
  cases st with
  | none =>
    refine ⟨?_, ?_, ?_⟩
    · simp [simulateGoveeLightning]
    · intro h
      rfl
    · intro b n
      rfl
  | some s =>
    refine ⟨?_, ?_, ?_⟩
    · cases tOk <;> cases bOk <;> cases cOk <;>
        simp [simulateGoveeLightning, applyGoveeLightState, applyBrightnessStep, applyColorStep]
    · intro h
      exact Option.noConfusion h
    · intro b n
      rfl

/-- Witness for C2 (amended): a failed capture aborts with no command
sent. -/
theorem lightning_capture_fail_witness :
    simulateGoveeLightning { status := none } "10.0.0.7" =
      (some LightningErr.captureFailed, []) :=
  (lightning_fails_iff_capture_or_restore { status := none } "10.0.0.7").2.1 rfl

/-! C4: a failed dispatch refunds exactly one token to a non-admin and
nothing to an admin, and leaves the action row (success = false)
untouched. -/

/-- C4: when the selected executor fails, delegateTrigger issues exactly
one +1 credit for a non-admin user and no credit for an admin, leaves the
action rows untouched (the pending success = false row stays false), and
the non-admin balance readback is exactly one more than before. -/
theorem dispatch_failure_refund (db : DB) (t : Trigger) (user : UserRow) (aid : Nat)
    (env : DispatchEnv) (e : DispatchErr)
    (hfail : runExecutor env (selectExecutor t) = some e) :
    delegateTrigger db t user aid env =
      (if user.isAdmin then db
       else { db with users := updateTokens db.users user.id (fun tok => tok + 1) }) ∧
    (delegateTrigger db t user aid env).actions = db.actions ∧
    (user.isAdmin = false →
      balanceOf (delegateTrigger db t user aid env) user.id =
        (balanceOf db user.id).map (fun b => b + 1)) := by
  have h1 : delegateTrigger db t user aid env =
      (if user.isAdmin then db
       else { db with users := updateTokens db.users user.id (fun tok => tok + 1) }) := by
    unfold delegateTrigger
    rw [hfail]
  refine ⟨h1, ?_, ?_⟩
  · rw [h1]
    by_cases hadm : user.isAdmin = true
    · simp [hadm]
    · simp [Bool.not_eq_true] at hadm
      simp [hadm]
  · intro hadm
    rw [h1, if_neg (by simp [hadm])]
    unfold balanceOf
    rw [show ({ db with users := updateTokens db.users user.id (fun tok => tok + 1) } : DB).users =
      updateTokens db.users user.id (fun tok => tok + 1) from rfl]
    rw [findUser_updateTokens]
    cases findUser db.users user.id with
    | none => rfl
    | some u => rfl

/-- Witness for C4: the spec scenario. A non-admin with balance 1
activates the arduino trigger, its endpoint answers HTTP 500, and after
resolution the balance is back to 1 with exactly one action row whose
success flag is false. -/
theorem dispatch_failure_refund_witness :
    runExecutor { httpResponse := some 500 } (selectExecutor trigA) =
      some (DispatchErr.httpStatus 500) ∧
    (activateHandler dbOne [trigA] userOne "A" {}).1 = ActivateResult.initiated 1 trigA ∧
    balanceOf (activateHandler dbOne [trigA] userOne "A" {}).2 "u" = some 0 ∧
    balanceOf (delegateTrigger (activateHandler dbOne [trigA] userOne "A" {}).2
      trigA userOne 1 { httpResponse := some 500 }) userOne.id = some 1 ∧
    (delegateTrigger (activateHandler dbOne [trigA] userOne "A" {}).2
      trigA userOne 1 { httpResponse := some 500 }).actions =
      [{ id := 1, userId := "u", triggerId := "A", success := false }] := by
  have h := dispatch_failure_refund (activateHandler dbOne [trigA] userOne "A" {}).2
    trigA userOne 1 { httpResponse := some 500 } (DispatchErr.httpStatus 500) (by decide)
  refine ⟨by decide, by decide, by decide, ?_, ?_⟩
  · have hb := h.2.2 rfl
    rw [hb]
    decide
  · rw [h.2.1]
    decide

/-! C6: recharge resets the balance to the default allotment and appends
exactly one recharge row, atomically. -/

/-- C6: recharge runs as one transaction: if any step (begin, the
balance update, the recharge insert, commit) aborts, the store is
returned unchanged; when every step succeeds the balance of the user is
set to exactly defaultTokens (10) regardless of its previous value,
exactly one recharge row is appended, and the action log is untouched. -/
theorem recharge_atomic (db : DB) (user : UserRow) (o : TxOracle) :
    ((o.beginFail = true ∨ o.exec1Fail = true ∨ o.exec2Fail = true ∨ o.commitFail = true) →
      rechargeHandler db user o = (RechargeResult.dbError, db)) ∧
    (o = {} →
      rechargeHandler db user o =
        (RechargeResult.redirect,
         { db with users := updateTokens db.users user.id (fun _ => defaultTokens),
                   recharges := db.recharges ++ [user.id] }) ∧
      ((balanceOf db user.id).isSome = true →
        balanceOf (rechargeHandler db user o).2 user.id = some defaultTokens) ∧
      (rechargeHandler db user o).2.recharges = db.recharges ++ [user.id] ∧
      (rechargeHandler db user o).2.actions = db.actions) := by
  constructor
  · obtain ⟨b, e1, e2, c⟩ := o
    intro h
    cases b <;> cases e1 <;> cases e2 <;> cases c <;>
      first
        | rfl
        | (exfalso; simp at h)
  · intro ho
    subst ho
    have hre : rechargeHandler db user {} =
        (RechargeResult.redirect,
         { db with users := updateTokens db.users user.id (fun _ => defaultTokens),
                   recharges := db.recharges ++ [user.id] }) := rfl
    refine ⟨hre, ?_, by rw [hre], by rw [hre]⟩
    intro hbal
    obtain ⟨bu, hbu⟩ := Option.isSome_iff_exists.mp hbal
    unfold balanceOf at hbu
    obtain ⟨u, hu, -⟩ := Option.map_eq_some'.mp hbu
    rw [hre]
    show (findUser (updateTokens db.users user.id (fun _ => defaultTokens)) user.id).map
      (fun u => u.tokensRemaining) = some defaultTokens
    rw [findUser_updateTokens, hu]
    rfl

/-- Witness for C6: a concrete recharge resets the balance from 1 to 10
and appends one row; a concrete aborted recharge leaves the store
unchanged. -/
theorem recharge_atomic_witness :
    rechargeHandler dbOne userOne {} =
      (RechargeResult.redirect,
       { dbOne with users := updateTokens dbOne.users userOne.id (fun _ => defaultTokens),
                    recharges := dbOne.recharges ++ [userOne.id] }) ∧
    balanceOf (rechargeHandler dbOne userOne {}).2 userOne.id = some defaultTokens ∧
    rechargeHandler dbZero userZero { beginFail := true } = (RechargeResult.dbError, dbZero) := by
  have h := (recharge_atomic dbOne userOne {}).2 rfl
  exact ⟨h.1, h.2.1 (by decide),
    (recharge_atomic dbZero userZero { beginFail := true }).1 (Or.inl rfl)⟩

/-! C7: the zero-filled per-minute activation series. -/

/-- A value stored in the activation map is keyed by its own minute. -/
theorem activationMap_minute (rows : List ActivationMinute) (m : Nat) (d : ActivationMinute)
    (h : activationMap rows m = some d) : d.minute = m := by
  have H : ∀ (rows2 : List ActivationMinute) (acc : Nat → Option ActivationMinute),
      (∀ e, acc m = some e → e.minute = m) →
      (rows2.foldl (fun acc am => fun m2 => if m2 = am.minute then some am else acc m2) acc) m =
        some d →
      d.minute = m := by
    intro rows2
    induction rows2 with
    | nil =>
      intro acc hacc hm
      exact hacc d hm
    | cons am rest ih =>
      intro acc hacc hm
      rw [List.foldl_cons] at hm
      refine ih _ ?_ hm
      intro e he
      simp only at he
      by_cases hme : m = am.minute
      · rw [if_pos hme] at he
        injection he with he2
        rw [← he2]
        exact hme.symm
      · rw [if_neg hme] at he
        exact hacc e he
  refine H rows (fun _ => none) ?_ h
  intro e he
  exact Option.noConfusion he

/-- C7: for every action log and every current time at least one hour
past the epoch, the series returned by the stats zero-fill has exactly 60
points; the j-th point carries the minute now/60 - 59 + j truncated to
minute granularity (so the points are consecutive minutes ending at the
current minute); and every window minute absent from the aggregated rows
appears as an explicit point with public and admin counts both zero. -/
theorem stats_zero_fill (nowSec : Nat) (rows : List ActivationMinute) (hnow : 3540 ≤ nowSec) :
    (zeroFillActivations nowSec rows).length = 60 ∧
    (∀ j (hj : j < (zeroFillActivations nowSec rows).length),
      ((zeroFillActivations nowSec rows).get ⟨j, hj⟩).minute = (nowSec / 60 - 59 + j) * 60) ∧
    (∀ j (hj : j < (zeroFillActivations nowSec rows).length),
      activationMap rows ((nowSec / 60 - 59 + j) * 60) = none →
        (zeroFillActivations nowSec rows).get ⟨j, hj⟩ =
          { minute := (nowSec / 60 - 59 + j) * 60, publicCount := 0, adminCount := 0 }) := by
  have hlen : (zeroFillActivations nowSec rows).length = 60 := by
    simp [zeroFillActivations]
  refine ⟨hlen, ?_, ?_⟩
  · intro j hj
    have hj60 : j < 60 := by rw [hlen] at hj; exact hj
    have harith : (nowSec - (59 - j) * 60) / 60 * 60 = (nowSec / 60 - 59 + j) * 60 := by omega
    cases hmap : activationMap rows ((nowSec / 60 - 59 + j) * 60) with
    | some d =>
      have hd := activationMap_minute _ _ _ hmap
      simp [zeroFillActivations, harith, hmap, hd]
    | none =>
      simp [zeroFillActivations, harith, hmap]
  · intro j hj hmap
    have hj60 : j < 60 := by rw [hlen] at hj; exact hj
    have harith : (nowSec - (59 - j) * 60) / 60 * 60 = (nowSec / 60 - 59 + j) * 60 := by omega
    simp [zeroFillActivations, harith, hmap]

/-- Witness for C7 at a concrete clock and the empty log: 60 points, the
last one being the current minute with zero counts. -/
theorem stats_zero_fill_witness :
    (zeroFillActivations 3600 []).length = 60 ∧
    (zeroFillActivations 3600 []).get ⟨59, by decide⟩ =
      { minute := 3600, publicCount := 0, adminCount := 0 } := by
  have h := stats_zero_fill 3600 [] (by decide)
  refine ⟨h.1, ?_⟩
  have h2 := h.2.2 59 (by decide) (by decide)
  simpa using h2

/-! C1: over-spend under concurrency. The claim fails as stated: the
balance check reads the pre-transaction snapshot and the row-level UPDATE
decrements unconditionally, so an interleaving of two requests against
balance 1 commits two debits. Serial execution does satisfy the bound. -/

/-- C1 counterexample: with initial balance 1, the interleaving that
lets both requests read the balance before either transaction commits
performs 2 successful debits (the claim bounds them by 1) and drives the
stored balance to -1. -/
theorem overspend_counterexample :
    (concRun (concInit 1)
      [ConcEvent.readUser 0, ConcEvent.readUser 1,
       ConcEvent.runTx 0, ConcEvent.runTx 1]).debits = 2 ∧
    ¬((concRun (concInit 1)
      [ConcEvent.readUser 0, ConcEvent.readUser 1,
       ConcEvent.runTx 0, ConcEvent.runTx 1]).debits ≤ 1) ∧
    (concRun (concInit 1)
      [ConcEvent.readUser 0, ConcEvent.readUser 1,
       ConcEvent.runTx 0, ConcEvent.runTx 1]).balance = -1 :=
  ⟨rfl, by decide, by decide⟩

/-- Auxiliary step lemma: running one serial request then the rest. -/
theorem concRun_serial (k : Nat) : ∀ (i : Nat) (s : ConcState),
    (concRun s (serialSched i k)).debits = s.debits + min k s.balance.toNat := by
  induction k with
  | zero =>
    intro i s
    simp [serialSched, concRun]
  | succ k ih =>
    intro i s
    have hstep : concRun s (serialSched i (k + 1)) =
        concRun (concStep (concStep s (ConcEvent.readUser i)) (ConcEvent.runTx i))
          (serialSched (i + 1) k) := rfl
    rw [hstep]
    by_cases hb : 0 < s.balance
    · have h2 : concStep (concStep s (ConcEvent.readUser i)) (ConcEvent.runTx i) =
          { balance := s.balance - 1,
            snapshot := fun j => if j = i then none
              else (concStep s (ConcEvent.readUser i)).snapshot j,
            debits := s.debits + 1 } := by
        simp [concStep, hb]
      rw [h2, ih (i + 1)]
      simp only
      omega
    · have h2 : concStep (concStep s (ConcEvent.readUser i)) (ConcEvent.runTx i) =
          { balance := s.balance,
            snapshot := fun j => if j = i then none
              else (concStep s (ConcEvent.readUser i)).snapshot j,
            debits := s.debits } := by
        simp [concStep, hb]
      rw [h2, ih (i + 1)]
      simp only
      omega

/-- C1 (amended): under serial execution — each request reads the user
row only after every earlier request's transaction has committed — the
number of successful debits by a user with initial balance N never
exceeds N. (The concurrent bound claimed by the spec fails; see the
counterexample.) -/
theorem serial_debits_bounded (n k : Nat) :
    (concRun (concInit (n : Int)) (serialSched 0 k)).debits ≤ n := by
  rw [concRun_serial k 0]
  simp [concInit]

/-! C9: the non-negative balance invariant under sequential execution. -/

/-- rechargeHandler either leaves the store untouched or installs the
committed transaction state. -/
theorem rechargeHandler_cases (db : DB) (user : UserRow) (o : TxOracle) :
    (rechargeHandler db user o).2 = db ∨
    (rechargeHandler db user o).2 =
      { db with users := updateTokens db.users user.id (fun _ => defaultTokens),
                recharges := db.recharges ++ [user.id] } := by
  obtain ⟨b, e1, e2, c⟩ := o
  cases b <;> cases e1 <;> cases e2 <;> cases c <;> simp [rechargeHandler]

/-- activateHandler either leaves the store untouched, or the user had
passed the token check and the committed state carries the debit (for
non-admins) together with the appended pending action row. -/
theorem activateHandler_cases (db : DB) (triggers : List Trigger) (user : UserRow)
    (tid : String) (o : TxOracle) :
    (activateHandler db triggers user tid o).2 = db ∨
    ((user.isAdmin = true ∨ 0 < user.tokensRemaining) ∧
     (activateHandler db triggers user tid o).2 =
       { db with
           users := if user.isAdmin then db.users
             else updateTokens db.users user.id (fun tok => tok - 1),
           actions := db.actions ++
             [{ id := db.nextActionId, userId := user.id, triggerId := tid, success := false }],
           nextActionId := db.nextActionId + 1 }) := by
  by_cases h1 : user.isAdmin = false ∧ user.tokensRemaining ≤ 0
  · left
    simp [activateHandler, h1]
  · have hpass : user.isAdmin = true ∨ 0 < user.tokensRemaining := by
      rcases Bool.eq_false_or_eq_true user.isAdmin with hadm | hadm
      · exact Or.inl hadm
      · right
        by_contra hc
        exact h1 ⟨hadm, by omega⟩
    simp only [activateHandler, if_neg h1]
    split
    · left
      rfl
    · split
      · left
        rfl
      · split
        · left
          rfl
        · split
          · left
            rfl
          · split
            · left
              rfl
            · split
              · left
                rfl
              · right
                exact ⟨hpass, rfl⟩

/-- Every row of an UPDATE result comes from a row of the input. -/
theorem mem_updateTokens (users : List UserRow) (uid : String) (f : Int → Int) (v : UserRow)
    (hv : v ∈ updateTokens users uid f) :
    ∃ u ∈ users,
      v = if u.id == uid then { u with tokensRemaining := f u.tokensRemaining } else u := by
  obtain ⟨u, hu, hveq⟩ := List.mem_map.mp hv
  exact ⟨u, hu, hveq.symm⟩

/-- Non-negativity of non-admin balances is preserved by an UPDATE whose
new value is non-negative on every affected non-admin row. -/
theorem nonneg_updateTokens (users : List UserRow) (uid : String) (f : Int → Int)
    (h : ∀ u ∈ users, u.isAdmin = false → 0 ≤ u.tokensRemaining)
    (hf : ∀ u ∈ users, u.id = uid → u.isAdmin = false → 0 ≤ f u.tokensRemaining) :
    ∀ v ∈ updateTokens users uid f, v.isAdmin = false → 0 ≤ v.tokensRemaining := by
  intro v hv hadm
  obtain ⟨u, hu, hveq⟩ := mem_updateTokens users uid f v hv
  subst hveq
  by_cases hid : u.id = uid
  · have hb : (u.id == uid) = true := by simpa using hid
    rw [if_pos hb] at hadm ⊢
    exact hf u hu hid hadm
  · have hb : ¬((u.id == uid) = true) := by simpa using hid
    rw [if_neg hb] at hadm ⊢
    exact h u hu hadm

/-- The store invariant is preserved by resolving a dispatch: a refund
only adds a token, and a success only touches the action rows. -/
theorem goodDB_delegateTrigger (db : DB) (t : Trigger) (user : UserRow) (aid : Nat)
    (env : DispatchEnv) (h : GoodDB db) : GoodDB (delegateTrigger db t user aid env) := by
  obtain ⟨hnd, hnn⟩ := h
  unfold delegateTrigger
  split
  · by_cases hadm : user.isAdmin = true
    · rw [if_pos hadm]
      exact ⟨hnd, hnn⟩
    · rw [if_neg hadm]
      constructor
      · show ((updateTokens db.users user.id (fun tok => tok + 1)).map (fun u => u.id)).Nodup
        rw [updateTokens_ids]
        exact hnd
      · show ∀ v ∈ updateTokens db.users user.id (fun tok => tok + 1),
          v.isAdmin = false → 0 ≤ v.tokensRemaining
        apply nonneg_updateTokens _ _ _ hnn
        intro u hu hid hadm2
        have := hnn u hu hadm2
        omega
  · exact ⟨hnd, hnn⟩

/-- The store invariant is preserved by one sequential request. -/
theorem goodDB_seqStep (db : DB) (op : SeqOp) (h : GoodDB db) : GoodDB (seqStep db op) := by
  obtain ⟨hnd, hnn⟩ := h
  cases op with
  | rechargeReq uid o =>
    simp only [seqStep]
    cases hfu : findUser db.users uid with
    | none => exact ⟨hnd, hnn⟩
    | some user =>
      show GoodDB ((rechargeHandler db user o).2)
      rcases rechargeHandler_cases db user o with hcase | hcase <;> rw [hcase]
      · exact ⟨hnd, hnn⟩
      · constructor
        · show ((updateTokens db.users user.id (fun _ => defaultTokens)).map
            (fun u => u.id)).Nodup
          rw [updateTokens_ids]
          exact hnd
        · show ∀ v ∈ updateTokens db.users user.id (fun _ => defaultTokens),
            v.isAdmin = false → 0 ≤ v.tokensRemaining
          apply nonneg_updateTokens _ _ _ hnn
          intro u hu hid hadm2
          simp [defaultTokens]
  | activateReq uid triggers tid o env =>
    simp only [seqStep]
    cases hfu : findUser db.users uid with
    | none => exact ⟨hnd, hnn⟩
    | some user =>
      show GoodDB (match activateHandler db triggers user tid o with
        | (ActivateResult.initiated aid trig, db2) => delegateTrigger db2 trig user aid env
        | (_, db2) => db2)
      have hdb2 : GoodDB (activateHandler db triggers user tid o).2 := by
        rcases activateHandler_cases db triggers user tid o with hcase | ⟨hpass, hcase⟩
        · rw [hcase]
          exact ⟨hnd, hnn⟩
        · rw [hcase]
          constructor
          · show ((if user.isAdmin then db.users
                else updateTokens db.users user.id (fun tok => tok - 1)).map
              (fun u => u.id)).Nodup
            by_cases hadm : user.isAdmin = true
            · rw [if_pos hadm]
              exact hnd
            · rw [if_neg hadm, updateTokens_ids]
              exact hnd
          · show ∀ v ∈ (if user.isAdmin then db.users
                else updateTokens db.users user.id (fun tok => tok - 1)),
              v.isAdmin = false → 0 ≤ v.tokensRemaining
            by_cases hadm : user.isAdmin = true
            · rw [if_pos hadm]
              exact hnn
            · rw [if_neg hadm]
              apply nonneg_updateTokens _ _ _ hnn
              intro u hu hid hadm2
              have huid : findUser db.users user.id = some u :=
                findUser_mem_unique db.users user.id u hnd hu hid
              have huser : findUser db.users user.id = some user := by
                have hid2 : user.id = uid := findUser_id db.users uid user hfu
                rw [hid2]
                exact hfu
              have hueq : u = user := by
                rw [huid] at huser
                injection huser with h3
              rcases hpass with hadm3 | hpos
              · rw [hueq] at hadm2
                rw [hadm3] at hadm2
                exact absurd hadm2 (by simp)
              · rw [hueq]
                omega
      cases hpair : activateHandler db triggers user tid o with
      | mk res db2 =>
        rw [hpair] at hdb2
        cases res with
        | initiated aid trig => exact goodDB_delegateTrigger db2 trig user aid env hdb2
        | outOfTokens => exact hdb2
        | notFound => exact hdb2
        | dbError => exact hdb2

/-- C9: every store satisfying the invariant (unique user ids, no
non-admin balance below zero) still satisfies it after any sequence of
sequential requests: the debit happens only behind a positive balance
check, the refund adds one token, and recharge writes the default
allotment, so no reachable sequential state holds a negative non-admin
balance. -/
theorem nonneg_invariant (db : DB) (ops : List SeqOp) (h : GoodDB db) :
    GoodDB (seqRun db ops) := by
  induction ops generalizing db with
  | nil => exact h
  | cons op rest ih =>
    simp only [seqRun, List.foldl_cons]
    exact ih (seqStep db op) (goodDB_seqStep db op h)

/-- Requests used by the C9 witness: an activation whose dispatch fails
and is refunded, a recharge, and a denied activation of an unknown id. -/
def witnessOps : List SeqOp :=
  [SeqOp.activateReq "u" [trigA] "A" {} {},
   SeqOp.rechargeReq "u" {},
   SeqOp.activateReq "u" [trigA] "missing" {} {}]

/-- Witness for C9 at a concrete store and request sequence. -/
theorem nonneg_invariant_witness :
    GoodDB dbOne ∧ GoodDB (seqRun dbOne witnessOps) :=
  ⟨by decide, nonneg_invariant dbOne witnessOps (by decide)⟩

end HalloweenDashboard
